import Mathlib

/-!
Verification of the microfs raw-mode protocol driver (`microfs.py`).

The Python module is shallowly embedded: byte strings become `List Nat`
(each element a byte value), Python `str` becomes Lean `String`, the
serial transport becomes an explicit `SerialState` stub (a queue of
responses for `read_until` plus a log of `write` calls, matching how the
repository's own test-suite stubs the transport with `side_effect`
lists), and Python exceptions become an explicit `PyError` sum carried in
`Except`.  All definitions are executable and structurally recursive
(fuel-based where Python iterates by slicing), so closed instances
evaluate by `rfl`/`decide`.
-/

namespace Microfs

/-- UTF-8 encoding of one character (RFC 3629), as byte values.
Models CPython's `str.encode('utf-8')` per character. -/
def utf8EncodeChar (c : Char) : List Nat :=
  let n := c.toNat
  if n < 128 then [n]
  else if n < 2048 then [192 + n / 64, 128 + n % 64]
  else if n < 65536 then [224 + n / 4096, 128 + (n / 64) % 64, 128 + n % 64]
  else [240 + n / 262144, 128 + (n / 4096) % 64, 128 + (n / 64) % 64, 128 + n % 64]

/-- Model of `command.encode('utf-8')`: UTF-8 bytes of a string. -/
def utf8Encode (s : String) : List Nat :=
  s.data.flatMap utf8EncodeChar

/-- Strict UTF-8 decoding, modelling CPython's `bytes.decode('utf-8')`:
rejects stray continuation bytes, overlong forms, surrogates and
out-of-range lead bytes; `none` models a raised `UnicodeDecodeError`. -/
def utf8Decode? : List Nat → Option (List Char)
  | [] => some []
  | b :: rest =>
    if b < 128 then
      (utf8Decode? rest).map (fun cs => Char.ofNat b :: cs)
    else if b < 194 then none
    else if b < 224 then
      match rest with
      | b1 :: r =>
        if 128 ≤ b1 ∧ b1 < 192 then
          (utf8Decode? r).map (fun cs => Char.ofNat ((b - 192) * 64 + (b1 - 128)) :: cs)
        else none
      | [] => none
    else if b < 240 then
      match rest with
      | b1 :: b2 :: r =>
        if (128 ≤ b1 ∧ b1 < 192) ∧ (128 ≤ b2 ∧ b2 < 192)
            ∧ (b = 224 → 160 ≤ b1) ∧ (b = 237 → b1 < 160) then
          (utf8Decode? r).map
            (fun cs => Char.ofNat ((b - 224) * 4096 + (b1 - 128) * 64 + (b2 - 128)) :: cs)
        else none
      | _ => none
    else if b < 245 then
      match rest with
      | b1 :: b2 :: b3 :: r =>
        if (128 ≤ b1 ∧ b1 < 192) ∧ (128 ≤ b2 ∧ b2 < 192) ∧ (128 ≤ b3 ∧ b3 < 192)
            ∧ (b = 240 → 144 ≤ b1) ∧ (b = 244 → b1 < 144) then
          (utf8Decode? r).map
            (fun cs => Char.ofNat ((b - 240) * 262144 + (b1 - 128) * 4096
              + (b2 - 128) * 64 + (b3 - 128)) :: cs)
        else none
      | _ => none
    else none

/-- Fuel-driven worker for `splitOnL` (Python `str.split(sep)` with a
non-empty separator).  The fuel is the length of the scanned list, which
always suffices; the fuel-exhausted branch is unreachable for the
wrapper's choice of fuel. -/
def splitGo (sep : List Char) : Nat → List Char → List (List Char)
  | _, [] => [[]]
  | 0, l => [l]
  | fuel + 1, x :: xs =>
    if sep.isPrefixOf (x :: xs) ∧ 0 < sep.length then
      [] :: splitGo sep fuel (xs.drop (sep.length - 1))
    else
      match splitGo sep fuel xs with
      | t :: ts => (x :: t) :: ts
      | [] => [[x]]

/-- Python `str.split(sep)` over character lists: non-overlapping,
left-to-right splitting on a non-empty separator; always returns at
least one part. -/
def splitOnL (sep xs : List Char) : List (List Char) :=
  splitGo sep xs.length xs

/-- Intercalation of character lists (used to model `str.format` and
`str.join`). -/
def joinWith (sep : List Char) : List (List Char) → List Char
  | [] => []
  | [t] => t
  | t :: ts => t ++ sep ++ joinWith sep ts

/-- The two-character sequence `{}` used by `str.format` templates. -/
def formatBraces : List Char := [Char.ofNat 123, Char.ofNat 125]

/-- Model of `template.format(arg)` for templates whose only replacement fields
are `\x7b\x7d` pairs: every such pair is replaced by `arg`.  The source
templates each contain exactly one pair. -/
def pyFormat (template arg : String) : String :=
  String.mk (joinWith arg.data (splitOnL formatBraces template.data))

/-- Fuel-driven worker for `chunksOf`.  Head chunk is the first `n`
elements, recursion on the rest; fuel is the list length, which always
suffices for positive `n`. -/
def chunksGo (n : Nat) : Nat → List Nat → List (List Nat)
  | _, [] => []
  | 0, l => [l]
  | fuel + 1, x :: xs => (x :: xs.take (n - 1)) :: chunksGo n fuel (xs.drop (n - 1))

/-- Consecutive `n`-byte chunks of a byte sequence, the last possibly
shorter.  Models both `put`'s `content[:64]` / `content[64:]` loop and
`execute`'s `range(0, len(command_bytes), 32)` slicing. -/
def chunksOf (n : Nat) (l : List Nat) : List (List Nat) :=
  chunksGo n l.length l

/-- Byte value of the lowercase hex digit for `n < 16`. -/
def hexDigit (n : Nat) : Nat := if n < 10 then 48 + n else 87 + n

/-- A string built from ASCII byte values. -/
def asciiStr (l : List Nat) : String := String.mk (l.map Char.ofNat)

/-- CPython `repr` of a `bytes` object (Python 3): `b` prefix, single
quotes unless the bytes contain a single quote and no double quote,
backslash escapes for the quote, backslash, tab, newline, carriage
return, and `\xhh` for other non-printable bytes. -/
def pyReprBytes (l : List Nat) : String :=
  let quote : Nat := if l.contains 39 ∧ ¬ l.contains 34 then 34 else 39
  let body : List Nat := l.flatMap (fun b =>
    if b = quote ∨ b = 92 then [92, b]
    else if b = 9 then [92, 116]
    else if b = 10 then [92, 110]
    else if b = 13 then [92, 114]
    else if b < 32 ∨ 127 ≤ b then [92, 120, hexDigit (b / 16), hexDigit (b % 16)]
    else [b])
  asciiStr (98 :: quote :: (body ++ [quote]))

/-- Python exceptions that the embedded code can raise.  `ioError` is
Python's `IOError` with its message (the spec's `ProtocolError`,
`LocalFileError` and `RemoteFileError` all surface as `IOError` in the
source); `valueError` models the unpacking failure in
`out, err = response[2:-2].split(b'\x04', 1)`; `unboundLocal` models
`UnboundLocalError` for a name read before assignment;
`unicodeDecodeError` models a `UnicodeDecodeError` escaping
`clean_error`. -/
inductive PyError where
  | ioError (msg : String)
  | valueError
  | unboundLocal (name : String)
  | unicodeDecodeError
deriving DecidableEq

/-- Stub serial transport, mirroring how the repository's tests stub
`Serial` with `mock` objects: `reads` is the queue of responses that
successive `read_until` calls return (a `side_effect` list; an exhausted
queue yields the empty byte string, as a timed-out read does), and
`writes` logs each `serial.write(...)` call in order. -/
structure SerialState where
  reads : List (List Nat)
  writes : List (List Nat)
deriving DecidableEq

/-- One `serial.write(b)` call: the payload is appended to the log. -/
def writeB (s : SerialState) (b : List Nat) : SerialState :=
  { s with writes := s.writes ++ [b] }

/-- One `serial.read_until(...)` call against the stub: pops and returns
the next queued response (empty if the queue is exhausted). -/
def readUntil (s : SerialState) : List Nat × SerialState :=
  match s.reads with
  | [] => ([], s)
  | r :: rs => (r, { s with reads := rs })

/-- The interactive-prompt delimiter `b'\n>>>'` scanned for by
`raw_on`. -/
def promptInteractive : List Nat := [10, 62, 62, 62]

/-- The raw-mode prompt delimiter `b'\r\n>'` read for by `raw_on`'s
second phase. -/
def promptRaw : List Nat := [13, 10, 62]

/-- The `while attempts_left:` loop of `raw_on` (lines 59-66): each
attempt writes the interrupt byte `0x03` and reads until the
interactive-prompt delimiter; the `while`/`else` raises
`IOError('Could not enter REPL mode.')` when the attempts are
exhausted. -/
def rawOnLoop : Nat → SerialState → Except PyError Unit × SerialState
  | 0, s => (.error (.ioError "Could not enter REPL mode."), s)
  | n + 1, s =>
    if promptInteractive.isSuffixOf (readUntil (writeB s [3])).1 then
      (.ok (), (readUntil (writeB s [3])).2)
    else rawOnLoop n (readUntil (writeB s [3])).2

/-- Model of `raw_on` (lines 55-68): three interrupt attempts, then on success
write the raw-mode-entry byte `0x01` and perform a single
`read_until(b'\r\n>')` whose outcome is not checked. -/
def raw_on (s : SerialState) : Except PyError Unit × SerialState :=
  match rawOnLoop 3 s with
  | (.error e, s1) => (.error e, s1)
  | (.ok _, s1) => (.ok (), (readUntil (writeB s1 [1])).2)

/-- Model of `raw_off` (lines 71-75): write the raw-mode-exit byte `0x02`,
fire-and-forget. -/
def raw_off (s : SerialState) : SerialState := writeB s [2]

/-- First-occurrence split, modelling
`bytes.split(b'\x04', 1)` followed by unpacking into two names: `none`
when the separator is absent (the unpack raises `ValueError`),
otherwise the bytes before and after the first separator. -/
def splitFirst (sep : Nat) : List Nat → Option (List Nat × List Nat)
  | [] => none
  | b :: rest =>
    if b = sep then some ([], rest)
    else (splitFirst sep rest).map (fun p => (b :: p.1, p.2))

/-- Model of `response[2:-2]`: drop the two leading status bytes and the two
trailing marker bytes (empty for responses shorter than four bytes,
as in Python slicing). -/
def slice2m2 (resp : List Nat) : List Nat :=
  (resp.drop 2).take (resp.length - 4)

/-- Parse one statement's response into `(out, err)` as
`execute` does at lines 111-112; `none` models the `ValueError` when no
stdout/stderr separator byte is present. -/
def parseResp (resp : List Nat) : Option (List Nat × List Nat) :=
  splitFirst 4 (slice2m2 resp)

/-- Transmit one statement (lines 106-111): UTF-8 encode, write in
fragments of at most 32 bytes (the `time.sleep(0.01)` pacing has no
observable effect on the stub and is elided), write the evaluation byte
`0x04`, then read until the end-of-output marker; returns the response
and the new transport state. -/
def runStmt (s : SerialState) (c : String) : List Nat × SerialState :=
  let s1 := (chunksOf 32 (utf8Encode c)).foldl writeB s
  let s2 := writeB s1 [4]
  readUntil s2

/-- The transport state after transmitting a list of statements in
order. -/
def runStmts (s : SerialState) (cs : List String) : SerialState :=
  cs.foldl (fun st c => (runStmt st c).2) s

/-- The write-log entries produced by transmitting a list of statements:
for each statement its at-most-32-byte fragments followed by the
evaluation byte — and nothing else (in particular no raw-mode-exit
byte). -/
def stmtWrites (cs : List String) : List (List Nat) :=
  cs.flatMap (fun c => chunksOf 32 (utf8Encode c) ++ [[4]])

/-- Number of single-quote characters in a string. -/
def countQuote (s : String) : Nat := s.data.count (Char.ofNat 39)

/-- The `for command in commands:` loop of `execute` (lines 102-117).
`acc` is the accumulated `result`, `lastErr` the value of `err` from the
most recent iteration (`none` while `err` is still unassigned).  After
the loop `raw_off` runs and `return result, err` reads `err` — on an
empty batch that name was never assigned, so the return raises
`UnboundLocalError`. -/
def executeLoop : List String → List Nat → Option (List Nat) → SerialState →
    Except PyError (List Nat × List Nat) × SerialState
  | [], acc, lastErr, s =>
    let s2 := raw_off s
    match lastErr with
    | some e => (.ok (acc, e), s2)
    | none => (.error (.unboundLocal "err"), s2)
  | c :: rest, acc, _, s =>
    match parseResp (runStmt s c).1 with
    | none => (.error .valueError, (runStmt s c).2)
    | some (out, err) =>
      if err = [] then executeLoop rest (acc ++ out) (some err) (runStmt s c).2
      else (.ok ([], err), (runStmt s c).2)

/-- Model of `execute` (lines 89-117) for an explicitly supplied serial stub:
enter raw mode, run the batch, and either return `(stdout, stderr)` or
propagate the handshake failure. -/
def execute (commands : List String) (s : SerialState) :
    Except PyError (List Nat × List Nat) × SerialState :=
  match raw_on s with
  | (.error e, s1) => (.error e, s1)
  | (.ok _, s1) => executeLoop commands [] none s1

/-- The separator `"\r\n"` that `clean_error` splits the decoded
traceback on, as a character list. -/
def crlf : List Char := [Char.ofNat 13, Char.ofNat 10]

/-- Model of `clean_error` (lines 120-131).  Note the source decodes
`err` *outside* the `try`, so only the `[-2]` indexing is protected:
`none` models a `UnicodeDecodeError` propagating out of the function,
while the `except Exception` clause (reachable only through the
`IndexError` of `split('\r\n')[-2]` on fewer than two parts) returns the
whole decoded text. -/
def clean_error (err : List Nat) : Option String :=
  if err = [] then some "There was an error."
  else
    match utf8Decode? err with
    | none => none
    | some cs =>
      let parts := splitOnL crlf cs
      if 2 ≤ parts.length then some (String.mk (parts.getD (parts.length - 2) []))
      else some (String.mk cs)

/-- Command batch built by `rm` (lines 162-165): the filename is pasted
between single quotes by `str.format` with no escaping. -/
def rm_commands (filename : String) : List String :=
  ["import os", pyFormat "os.remove(\x27\x7b\x7d\x27)" filename]

/-- Flag mirroring the module-level `PY2`; the model embeds the code as
run under Python 3. -/
def PY2 : Bool := false

/-- Command batch built by `put` (lines 189-200): open the target in
write-binary mode, bind the write method, one `f(...)` statement per
64-byte chunk of the content (each chunk rendered with `repr`), and a
closing statement. -/
def put_commands (target : String) (content : List Nat) : List String :=
  [pyFormat "fd = open(\x27\x7b\x7d\x27, \x27wb\x27)" target, "f = fd.write"]
    ++ (chunksOf 64 content).map (fun line =>
        if PY2 then "f(b" ++ pyReprBytes line ++ ")"
        else "f(" ++ pyReprBytes line ++ ")")
    ++ ["fd.close()"]

/-- Model of `os.path.basename` for POSIX paths: the part after the last
slash. -/
def basename (p : String) : String :=
  String.mk ((splitOnL [Char.ofNat 47] p.data).getLastD [])

/-- Model of `put` (lines 172-204).  The local filesystem is an explicit
parameter `isfile` giving the content of each existing local path
(`none` for a missing file, where the source raises
`IOError('No such file.')` before any transport interaction).  On
success the function returns `True` as the source does. -/
def put (isfile : String → Option (List Nat)) (filename : String)
    (target : Option String) (s : SerialState) : Except PyError Bool × SerialState :=
  match isfile filename with
  | none => (.error (.ioError "No such file."), s)
  | some content =>
    let fname := basename filename
    let tgt := match target with | none => fname | some t => t
    match execute (put_commands tgt content) s with
    | (.error e, s1) => (.error e, s1)
    | (.ok (_, err), s1) =>
      if err = [] then (.ok true, s1)
      else
        match clean_error err with
        | some m => (.error (.ioError m), s1)
        | none => (.error .unicodeDecodeError, s1)

/-- Command batch built by `get` (lines 219-227): the generated
device-side loop reads 32-byte chunks and sends each chunk's raw bytes
with `uart.write(result)`. -/
def get_commands (filename : String) : List String :=
  ["from microbit import uart",
   pyFormat "f = open(\x27\x7b\x7d\x27, \x27rb\x27)" filename,
   "r = f.read",
   "result = True",
   "while result:\n    result = r(32)\n    if result:\n        uart.write(result)\n",
   "f.close()",
  ]

/-- Model of `get` (lines 207-234).  On success it returns the pair
recording the single local filesystem write the source performs:
the target path and the bytes written to it, which are exactly the
batch's `out` bytes (lines 232-233 write `out` verbatim; the comment at
line 231 notwithstanding, no stripping of a leading `b'` or trailing
quote happens). -/
def get (filename : String) (target : Option String) (s : SerialState) :
    Except PyError (String × List Nat) × SerialState :=
  let tgt := match target with | none => filename | some t => t
  match execute (get_commands filename) s with
  | (.error e, s1) => (.error e, s1)
  | (.ok (out, err), s1) =>
    if err = [] then (.ok (tgt, out), s1)
    else
      match clean_error err with
      | some m => (.error (.ioError m), s1)
      | none => (.error .unicodeDecodeError, s1)

/-- Outcomes of the four core operations as the CLI dispatcher sees
them; `main` only dispatches and catches, so the operations are
abstracted to their results (`get`'s success value is the local write it
performs). -/
structure CliEnv where
  ls_result : Except PyError (List String)
  rm_result : String → Except PyError Bool
  put_result : String → Option String → Except PyError Bool
  get_result : String → Option String → Except PyError (String × List Nat)

/-- Message a Python `print(ex)` shows for each modelled exception. -/
def pyErrMsg : PyError → String
  | .ioError m => m
  | .valueError => "not enough values to unpack (expected 2, got 1)"
  | .unboundLocal n => "local variable \x27" ++ n ++ "\x27 referenced before assignment"
  | .unicodeDecodeError => "UnicodeDecodeError"

/-- Stand-in for the text `parser.print_help()` emits; the help text
itself is argparse's concern (an external collaborator per the spec) and
only its occurrence matters here. -/
def help_text : String := "<argparse help>"

/-- Model of `main` (lines 237-280) on plain positional argument vectors
(at most three entries, no option flags — the domain exercised by the
CLI contract; `argparse` itself is an external collaborator).  Returns
the printed lines and the process exit status.  The source's `main`
returns `None` on every path and its `except Exception` clause prints
and falls through, so the process exit status is `0` throughout. -/
def main (argv : List String) (env : CliEnv) : List String × Nat :=
  let command := argv.get? 0
  let path := argv.get? 1
  let target := argv.get? 2
  if command = some "ls" then
    match env.ls_result with
    | .ok files => (if files = [] then [] else [String.intercalate " " files], 0)
    | .error e => ([pyErrMsg e], 0)
  else if command = some "rm" then
    match path with
    | some p =>
      match env.rm_result p with
      | .ok _ => ([], 0)
      | .error e => ([pyErrMsg e], 0)
    | none => (["rm: missing filename. (e.g. \x22ufs rm foo.txt\x22)"], 0)
  else if command = some "put" then
    match path with
    | some p =>
      match env.put_result p target with
      | .ok _ => ([], 0)
      | .error e => ([pyErrMsg e], 0)
    | none => (["put: missing filename. (e.g. \x22ufs put foo.txt\x22)"], 0)
  else if command = some "get" then
    match path with
    | some p =>
      match env.get_result p target with
      | .ok _ => ([], 0)
      | .error e => ([pyErrMsg e], 0)
    | none => (["get: missing filename. (e.g. \x22ufs get foo.txt\x22)"], 0)
  else ([help_text], 0)

/-- Response bytes of a statement that prints nothing and raises
nothing: `b'OK\x04\x04>'`. -/
def okResp : List Nat := [79, 75, 4, 4, 62]

/-- Transport stub for a `get` exchange, shaped like the repository's
`test_get`: the handshake reads succeed, statements one to four and six
produce no output, and the fifth (the device-side read loop) produces
the stdout payload `b"b'hello'"` — the literal text of the
repr-encoded chunk that the newer device-side program would echo. -/
def stubGet : SerialState :=
  ⟨[[10, 62, 62, 62], [13, 10, 62], okResp, okResp, okResp, okResp,
    [79, 75] ++ utf8Encode "b\x27hello\x27" ++ [4, 4, 62], okResp], []⟩

/-- Transport stub whose second queued response lacks the raw-mode
prompt delimiter `b'\r\n>'`: the interactive prompt appears at once, but
the raw prompt never does. -/
def stubC6 : SerialState := ⟨[[10, 62, 62, 62], [102, 111, 111]], []⟩

/-- Transport stub that completes the handshake on the first interrupt
(the raw-prompt read then finds the queue exhausted, like a timed-out
read). -/
def stubEmptyBatch : SerialState := ⟨[[10, 62, 62, 62]], []⟩

/-- Transport stub for a two-statement batch whose statements both
succeed: handshake reads, then `b'OK\x04\x04>'` and
`b'OK[]\x04\x04>'` (the shape used by the repository's
`test_execute`). -/
def stubTwoOk : SerialState :=
  ⟨[[10, 62, 62, 62], [13, 10, 62], okResp, [79, 75, 91, 93, 4, 4, 62]], []⟩

/-- Transport stub for a batch whose second statement reports
`b'Error'` on stderr: handshake reads, a clean first response, the
failing response, and one further queued response that must never be
consumed. -/
def stubErrSecond : SerialState :=
  ⟨[[10, 62, 62, 62], [13, 10, 62], okResp,
    [79, 75, 4, 69, 114, 114, 111, 114, 4, 62], okResp], []⟩

/-- Transport stub on which every interrupt attempt fails to produce the
interactive prompt within the three-attempt budget (a fourth queued
response would succeed, but is never reached). -/
def stubNeverPrompt : SerialState :=
  ⟨[[62], [62], [62], [10, 62, 62, 62]], []⟩

/-- CLI environment in which every core operation succeeds trivially. -/
def trivialEnv : CliEnv :=
  ⟨.ok [], fun _ => .ok true, fun _ _ => .ok true, fun _ _ => .ok ("", [])⟩

/-- CLI environment in which `get` raises `IOError('boom')`. -/
def boomEnv : CliEnv :=
  { trivialEnv with get_result := fun _ _ => .error (.ioError "boom") }

/-! Basic facts about the stub transport operations. -/

@[simp]
theorem writeB_reads (s : SerialState) (b : List Nat) : (writeB s b).reads = s.reads := rfl

@[simp]
theorem writeB_writes (s : SerialState) (b : List Nat) :
    (writeB s b).writes = s.writes ++ [b] := rfl

@[simp]
theorem readUntil_fst (s : SerialState) : (readUntil s).1 = s.reads.getD 0 [] := by
  rcases s with ⟨reads, writes⟩
  cases reads <;> rfl

@[simp]
theorem readUntil_snd_reads (s : SerialState) : (readUntil s).2.reads = s.reads.drop 1 := by
  rcases s with ⟨reads, writes⟩
  cases reads <;> rfl

@[simp]
theorem readUntil_snd_writes (s : SerialState) : (readUntil s).2.writes = s.writes := by
  rcases s with ⟨reads, writes⟩
  cases reads <;> rfl

/-- Reading the queue after any number of pops shifts `getD` indices by
one per pop. -/
theorem getD_drop_one (l : List (List Nat)) (i : Nat) :
    (l.drop 1).getD i [] = l.getD (i + 1) [] := by
  cases l <;> simp [List.getD]

/-- The handshake's interrupt loop fails with the REPL error exactly
when none of the first `n` queued responses ends with the
interactive-prompt delimiter. -/
theorem rawOnLoop_error_iff : ∀ (n : Nat) (s : SerialState),
    (rawOnLoop n s).1 = .error (.ioError "Could not enter REPL mode.")
      ↔ ∀ i, i < n → ¬ promptInteractive <:+ s.reads.getD i []
  | 0, s => by simp [rawOnLoop]
  | n + 1, s => by
    rw [rawOnLoop]
    simp only [readUntil_fst, readUntil_snd_reads, writeB_reads]
    by_cases h : promptInteractive <:+ s.reads.getD 0 []
    · rw [if_pos (List.isSuffixOf_iff_suffix.mpr h)]
      constructor
      · intro hc
        exact absurd hc (by simp)
      · intro hall
        exact absurd h (hall 0 (by omega))
    · rw [if_neg (fun hb => h (List.isSuffixOf_iff_suffix.mp hb))]
      rw [rawOnLoop_error_iff n]
      simp only [readUntil_snd_reads, writeB_reads]
      constructor
      · intro hall i hi
        match i, hi with
        | 0, _ => exact h
        | j + 1, hj =>
          have hj' := hall j (by omega)
          rwa [getD_drop_one] at hj'
      · intro hall i hi
        rw [getD_drop_one]
        exact hall (i + 1) (by omega)

/-- The interrupt loop either succeeds or fails with the REPL error. -/
theorem rawOnLoop_ok_or_error : ∀ (n : Nat) (s : SerialState),
    (rawOnLoop n s).1 = .ok ()
      ∨ (rawOnLoop n s).1 = .error (.ioError "Could not enter REPL mode.")
  | 0, _ => .inr rfl
  | n + 1, s => by
    rw [rawOnLoop]
    by_cases h : promptInteractive.isSuffixOf (readUntil (writeB s [3])).1 = true
    · rw [if_pos h]
      exact .inl rfl
    · rw [if_neg h]
      exact rawOnLoop_ok_or_error n _

/-- The outcome of `raw_on` is the outcome of its interrupt loop: the
second phase never changes success into failure or conversely. -/
theorem raw_on_fst (s : SerialState) : (raw_on s).1 = (rawOnLoop 3 s).1 := by
  unfold raw_on
  rcases h : rawOnLoop 3 s with ⟨r, s1⟩
  cases r with
  | error e => rfl
  | ok u => rfl

/-- When the interrupt loop exhausts its attempts, it has written the
interrupt byte once per attempt and nothing else. -/
theorem rawOnLoop_writes_exhausted : ∀ (n : Nat) (s : SerialState),
    (∀ i, i < n → ¬ promptInteractive <:+ s.reads.getD i []) →
    (rawOnLoop n s).2.writes = s.writes ++ List.replicate n [3]
  | 0, s, _ => by simp [rawOnLoop]
  | n + 1, s, h => by
    rw [rawOnLoop]
    simp only [readUntil_fst, writeB_reads]
    rw [if_neg (fun hb => h 0 (by omega) (List.isSuffixOf_iff_suffix.mp hb))]
    rw [rawOnLoop_writes_exhausted n _ (by
      intro i hi
      simp only [readUntil_snd_reads, writeB_reads]
      rw [getD_drop_one]
      exact h (i + 1) (by omega))]
    simp [List.replicate_succ]

/-- On interrupt-loop failure, `raw_on` returns the loop's final
transport state (the second phase never runs). -/
theorem raw_on_snd_of_error (s : SerialState) (e : PyError)
    (h : (rawOnLoop 3 s).1 = .error e) : (raw_on s).2 = (rawOnLoop 3 s).2 := by
  unfold raw_on
  rcases hL : rawOnLoop 3 s with ⟨r, s1⟩
  rw [hL] at h
  cases r with
  | error e2 => rfl
  | ok u => exact absurd h (by simp)

/-- Claim C5 — `raw_on` sends the interrupt byte and scans for the
interactive-prompt delimiter with a fixed budget of three attempts: it
raises the REPL `IOError` (the spec's `ProtocolError`) precisely when
none of the three attempts sees a response ending in the delimiter, and
otherwise returns successfully; it always terminates in one of those two
outcomes rather than retrying further or hanging. -/
theorem claim_C5_raw_on_retry_budget (s : SerialState) :
    ((raw_on s).1 = .error (.ioError "Could not enter REPL mode.")
        ↔ ∀ i, i < 3 → ¬ promptInteractive <:+ s.reads.getD i [])
      ∧ ((raw_on s).1 = .ok ()
        ∨ (raw_on s).1 = .error (.ioError "Could not enter REPL mode."))
      ∧ ((raw_on s).1 = .error (.ioError "Could not enter REPL mode.")
        → (raw_on s).2.writes = s.writes ++ [[3], [3], [3]]) := by
  refine ⟨?_, ?_, ?_⟩
  · rw [raw_on_fst]
    exact rawOnLoop_error_iff 3 s
  · rw [raw_on_fst]
    exact rawOnLoop_ok_or_error 3 s
  · intro herr
    have herr' := herr
    rw [raw_on_fst] at herr'
    have hall := (rawOnLoop_error_iff 3 s).mp herr'
    rw [raw_on_snd_of_error s _ herr']
    exact rawOnLoop_writes_exhausted 3 s hall

/-- Witness for claim C5 at a concrete stub: a transport that never
shows the interactive prompt within the budget makes `raw_on` fail with
the REPL error, having written the interrupt byte exactly three times,
even though a fourth queued response would have matched. -/
theorem claim_C5_raw_on_retry_budget_witness :
    (raw_on stubNeverPrompt).1 = .error (.ioError "Could not enter REPL mode.")
      ∧ (raw_on stubNeverPrompt).2.writes = [[3], [3], [3]] :=
  ⟨(claim_C5_raw_on_retry_budget stubNeverPrompt).1.mpr (by decide),
   (claim_C5_raw_on_retry_budget stubNeverPrompt).2.2
     ((claim_C5_raw_on_retry_budget stubNeverPrompt).1.mpr (by decide))⟩

/-- Claim C6 — refuted on the source: after the interactive prompt is
confirmed, `raw_on`'s second phase writes the raw-mode-entry byte and
performs exactly one unchecked `read_until(b'\r\n>')`; it neither
retries nor raises when the raw-mode prompt delimiter never appears.  On
a stub whose post-handshake response `b'foo'` lacks the delimiter,
`raw_on` still returns successfully, having consumed both queued reads
and written only the interrupt and raw-mode-entry bytes.  (The
repository's own `test_raw_on_failures` expects an
`IOError('Could not enter raw REPL.')` in this situation, asserting the
behavior of a newer revision of `raw_on`.) -/
theorem claim_C6_phase2_no_retry_no_error :
    (raw_on stubC6).1 = .ok ()
      ∧ ¬ promptRaw.isSuffixOf [102, 111, 111]
      ∧ (raw_on stubC6).2.reads = []
      ∧ (raw_on stubC6).2.writes = [[3], [1]] :=
  ⟨rfl, by decide, rfl, rfl⟩

/-- Claim C8 — `put` validates its local precondition before touching
the transport: when the local path names no existing file, it raises
`IOError('No such file.')` (the spec's `LocalFileError`) and the
transport state is returned exactly as supplied — no handshake byte, no
statement byte, and no read has occurred. -/
theorem claim_C8_put_local_precondition (isfile : String → Option (List Nat))
    (filename : String) (target : Option String) (s : SerialState)
    (h : isfile filename = none) :
    put isfile filename target s = (.error (.ioError "No such file."), s) := by
  simp [put, h]

/-- Witness for claim C8: a filesystem with no files at all makes `put`
fail on the untouched pristine transport. -/
theorem claim_C8_put_local_precondition_witness :
    put (fun _ => none) "tests/foo.txt" none ⟨[], []⟩
      = (.error (.ioError "No such file."), ⟨[], []⟩) :=
  claim_C8_put_local_precondition (fun _ => none) "tests/foo.txt" none ⟨[], []⟩ rfl

/-- Claim C9 — refuted on the source: `main` never exits non-zero on the
claimed paths.  With `rm` and no path argument it prints the usage
message and the process status is `0` (the claim and the repository's
`test_main_rm_no_filename`, written against a newer revision, say
non-zero / `SystemExit(2)`); with a core operation raising
`IOError('boom')` the exception is caught, printed, and the status is
again `0` (the newer `test_main_handle_exception` expects
`SystemExit(1)`).  Only the help path agrees with the claim: an absent
command prints help and exits `0`. -/
theorem claim_C9_main_exit_codes :
    main ["rm"] trivialEnv = (["rm: missing filename. (e.g. \x22ufs rm foo.txt\x22)"], 0)
      ∧ main ["get", "foo"] boomEnv = (["boom"], 0)
      ∧ main [] trivialEnv = ([help_text], 0) :=
  ⟨rfl, rfl, rfl⟩

/-- Claim C1 — refuted on the source: `get` writes the batch's raw
stdout bytes verbatim to the local target, performing no reversal of any
literal encoding.  On a stub whose stdout is the eight literal-text
bytes `b"b'hello'"` (the very stdout the repository's `test_get` feeds
in), the bytes recorded as written to `local.txt` are those eight bytes,
not the five decoded content bytes `b'hello'` that the claim (and the
source's own line-231 comment and `test_get`) say should be written. -/
theorem claim_C1_get_writes_raw_stdout :
    (get "hello.txt" (some "local.txt") stubGet).1
        = .ok ("local.txt", utf8Encode "b\x27hello\x27")
      ∧ utf8Encode "b\x27hello\x27" ≠ [104, 101, 108, 108, 111] :=
  ⟨rfl, by decide⟩

/-- Claim C2, counterexample — on the empty batch (every statement of
which trivially succeeds) `execute` does not return the pair of empty
byte strings: the `return result, err` line reads `err`, which no
iteration ever assigned, so the call fails with an unbound-local
error. -/
theorem claim_C2_counterexample_empty_batch :
    (execute [] stubEmptyBatch).1 = .error (.unboundLocal "err")
      ∧ (execute [] stubEmptyBatch).1 ≠ .ok (([] : List Nat), ([] : List Nat)) :=
  ⟨rfl, fun h => Except.noConfusion h⟩

/-! Facts about the chunking function shared by `put` and the
statement-fragment writes of `execute`. -/

/-- The chunking worker is insensitive to its fuel once the fuel covers
the list length. -/
theorem chunksGo_fuel_eq (n : Nat) : ∀ (f1 f2 : Nat) (l : List Nat),
    l.length ≤ f1 → l.length ≤ f2 → chunksGo n f1 l = chunksGo n f2 l
  | f1, f2, [], _, _ => by cases f1 <;> cases f2 <;> rfl
  | 0, _, x :: xs, h1, _ => by simp at h1
  | _ + 1, 0, x :: xs, _, h2 => by simp at h2
  | f1 + 1, f2 + 1, x :: xs, h1, h2 => by
    rw [chunksGo, chunksGo]
    congr 1
    exact chunksGo_fuel_eq n f1 f2 (xs.drop (n - 1))
      (by simp at h1 ⊢; omega) (by simp at h2 ⊢; omega)

@[simp]
theorem chunksOf_nil (n : Nat) : chunksOf n [] = [] := rfl

/-- Unfolding equation of `chunksOf` on a non-empty list: the first `n`
elements, then the chunks of the rest. -/
theorem chunksOf_cons (n x : Nat) (xs : List Nat) :
    chunksOf n (x :: xs) = (x :: xs.take (n - 1)) :: chunksOf n (xs.drop (n - 1)) := by
  rw [chunksOf, chunksOf]
  rw [show (x :: xs).length = xs.length + 1 from rfl, chunksGo]
  congr 1
  exact chunksGo_fuel_eq n xs.length (xs.drop (n - 1)).length (xs.drop (n - 1))
    (by simp) le_rfl

/-- Concatenating the chunks recovers the original byte sequence. -/
theorem chunksOf_flatten (n : Nat) : ∀ (l : List Nat), (chunksOf n l).flatten = l
  | [] => rfl
  | x :: xs => by
    rw [chunksOf_cons, List.flatten_cons, chunksOf_flatten n (xs.drop (n - 1))]
    simp [List.take_append_drop]
termination_by l => l.length
decreasing_by simp; omega

/-- Every chunk is non-empty and no longer than the chunk size. -/
theorem chunksOf_mem_length (n : Nat) (hn : 1 ≤ n) : ∀ (l : List Nat),
    ∀ c ∈ chunksOf n l, c.length ≤ n ∧ c ≠ []
  | [] => by simp
  | x :: xs => by
    rw [chunksOf_cons]
    intro c hc
    rcases List.mem_cons.mp hc with h | h
    · subst h
      refine ⟨?_, by simp⟩
      simp [List.length_take]
      omega
    · exact chunksOf_mem_length n hn (xs.drop (n - 1)) c h
termination_by l => l.length
decreasing_by simp; omega

/-- A byte sequence has no chunks exactly when it is empty. -/
theorem chunksOf_eq_nil_iff (n : Nat) (l : List Nat) : chunksOf n l = [] ↔ l = [] := by
  cases l with
  | nil => simp
  | cons x xs => rw [chunksOf_cons]; simp

/-- Every chunk except possibly the last has length exactly the chunk
size. -/
theorem chunksOf_full (n : Nat) (hn : 1 ≤ n) : ∀ (l : List Nat) (i : Nat),
    i + 1 < (chunksOf n l).length → ((chunksOf n l).getD i []).length = n
  | [], i => by simp
  | x :: xs, 0 => by
    rw [chunksOf_cons]
    intro hlen
    have htail : chunksOf n (xs.drop (n - 1)) ≠ [] := by
      intro h0
      rw [h0] at hlen
      simp at hlen
    have hdrop : ¬ xs.length ≤ n - 1 := by
      intro hle
      exact htail (by rw [List.drop_eq_nil_of_le hle]; rfl)
    simp [List.length_take]
    omega
  | x :: xs, i + 1 => by
    rw [chunksOf_cons]
    intro hlen
    rw [List.getD_cons_succ]
    exact chunksOf_full n hn (xs.drop (n - 1)) i (by simpa using hlen)
termination_by l => l.length
decreasing_by simp; omega

/-- Claim C7 — `put` splits the content into consecutive 64-byte chunks
(the last possibly shorter, none empty, their concatenation the whole
content), emits exactly one data-writing statement per chunk in chunk
order between the open/bind statements and the close statement, and for
130 bytes of content produces exactly three data-writing statements
covering 64, 64 and 2 bytes. -/
theorem claim_C7_put_chunking (content : List Nat) (target : String) :
    put_commands target content
        = [pyFormat "fd = open(\x27\x7b\x7d\x27, \x27wb\x27)" target, "f = fd.write"]
          ++ (chunksOf 64 content).map (fun line => "f(" ++ pyReprBytes line ++ ")")
          ++ ["fd.close()"]
      ∧ (chunksOf 64 content).flatten = content
      ∧ (∀ c ∈ chunksOf 64 content, c.length ≤ 64 ∧ c ≠ [])
      ∧ (∀ i, i + 1 < (chunksOf 64 content).length
          → ((chunksOf 64 content).getD i []).length = 64)
      ∧ (content.length = 130 → (chunksOf 64 content).map List.length = [64, 64, 2]) := by
  refine ⟨by simp [put_commands, PY2], chunksOf_flatten 64 content,
    chunksOf_mem_length 64 (by omega) content,
    fun i => chunksOf_full 64 (by omega) content i, ?_⟩
  intro h130
  rcases content with _ | ⟨x, xs⟩
  · simp at h130
  · have hxs : xs.length = 129 := by simpa using h130
    rw [chunksOf_cons]
    rcases hd : xs.drop 63 with _ | ⟨y, ys⟩
    · have := List.drop_eq_nil_iff.mp hd
      omega
    · have hys : ys.length = 65 := by
        have := congrArg List.length hd
        simp at this
        omega
      rw [chunksOf_cons]
      rcases hd2 : ys.drop 63 with _ | ⟨z, zs⟩
      · have := List.drop_eq_nil_iff.mp hd2
        omega
      · have hzs : zs.length = 1 := by
          have := congrArg List.length hd2
          simp at this
          omega
        rw [chunksOf_cons]
        have hdz : zs.drop 63 = [] := List.drop_eq_nil_of_le (by omega)
        rw [hdz, chunksOf_nil]
        simp [List.length_take]
        omega

/-- Witness for claim C7 at a concrete 130-byte content: three data
chunks of sizes 64, 64 and 2. -/
theorem claim_C7_put_chunking_witness :
    (chunksOf 64 (List.replicate 130 7)).map List.length = [64, 64, 2] :=
  (claim_C7_put_chunking (List.replicate 130 7) "remote.bin").2.2.2.2 (by simp)

/-! String-formatting facts for the quote-injection claim. -/

/-- Appending strings is appending their character lists. -/
theorem mk_append_data (a b : List Char) (s : String) :
    String.mk (a ++ s.data ++ b) = String.mk a ++ s ++ String.mk b := by
  cases s
  rfl

/-- Evaluation of `pyFormat` for a template with exactly one
replacement-field pair: the argument is pasted verbatim between the two
template parts. -/
theorem pyFormat_eval (t : String) (p1 p2 : List Char)
    (h : splitOnL formatBraces t.data = [p1, p2]) (arg : String) :
    pyFormat t arg = String.mk p1 ++ arg ++ String.mk p2 := by
  rw [pyFormat, h]
  cases arg
  rfl

/-- Quote counting distributes over string append. -/
theorem countQuote_append (a b : String) :
    countQuote (a ++ b) = countQuote a + countQuote b := by
  cases a with
  | mk d1 =>
    cases b with
    | mk d2 =>
      show (d1 ++ d2).count (Char.ofNat 39) = _
      rw [List.count_append]
      rfl

/-- Claim C10 — the statements generated by `rm`, `put` and `get` embed
the supplied name between single quotes by direct interpolation with no
escaping: the remove statement is exactly `os.remove('<name>')`, the
open statements are exactly `fd = open('<name>', 'wb')` and
`f = open('<name>', 'rb')`, every quote character of the name survives
verbatim (two delimiters plus however many the name contains), and a
name containing a single quote therefore yields a statement with more
than the two delimiting quotes, so the quotes no longer delimit the name
as one string literal. -/
theorem claim_C10_quote_injection (name : String) (content : List Nat) :
    rm_commands name = ["import os", "os.remove(\x27" ++ name ++ "\x27)"]
      ∧ (put_commands name content).head?
          = some ("fd = open(\x27" ++ name ++ "\x27, \x27wb\x27)")
      ∧ (get_commands name).get? 1
          = some ("f = open(\x27" ++ name ++ "\x27, \x27rb\x27)")
      ∧ countQuote ("os.remove(\x27" ++ name ++ "\x27)") = 2 + countQuote name
      ∧ (0 < countQuote name
          → 2 < countQuote ("os.remove(\x27" ++ name ++ "\x27)")) := by
  have h1 : pyFormat "os.remove(\x27\x7b\x7d\x27)" name
      = "os.remove(\x27" ++ name ++ "\x27)" :=
    pyFormat_eval "os.remove(\x27\x7b\x7d\x27)" "os.remove(\x27".data "\x27)".data rfl name
  have h2 : pyFormat "fd = open(\x27\x7b\x7d\x27, \x27wb\x27)" name
      = "fd = open(\x27" ++ name ++ "\x27, \x27wb\x27)" :=
    pyFormat_eval "fd = open(\x27\x7b\x7d\x27, \x27wb\x27)" "fd = open(\x27".data
      "\x27, \x27wb\x27)".data rfl name
  have h3 : pyFormat "f = open(\x27\x7b\x7d\x27, \x27rb\x27)" name
      = "f = open(\x27" ++ name ++ "\x27, \x27rb\x27)" :=
    pyFormat_eval "f = open(\x27\x7b\x7d\x27, \x27rb\x27)" "f = open(\x27".data
      "\x27, \x27rb\x27)".data rfl name
  have hcount : countQuote ("os.remove(\x27" ++ name ++ "\x27)") = 2 + countQuote name := by
    rw [countQuote_append, countQuote_append]
    have ha : countQuote "os.remove(\x27" = 1 := rfl
    have hb : countQuote "\x27)" = 1 := rfl
    omega
  refine ⟨?_, ?_, ?_, hcount, ?_⟩
  · rw [rm_commands, h1]
  · show some (pyFormat "fd = open(\x27\x7b\x7d\x27, \x27wb\x27)" name) = _
    rw [h2]
  · show some (pyFormat "f = open(\x27\x7b\x7d\x27, \x27rb\x27)" name) = _
    rw [h3]
  · intro hq
    omega

/-- Witness for claim C10 at a name containing a single quote: the
generated remove statement carries three quote characters, so its
delimiters no longer enclose the name as one literal. -/
theorem claim_C10_quote_injection_witness :
    rm_commands "a\x27b" = ["import os", "os.remove(\x27a\x27b\x27)"]
      ∧ 2 < countQuote "os.remove(\x27a\x27b\x27)" :=
  ⟨(claim_C10_quote_injection "a\x27b" []).1,
   (claim_C10_quote_injection "a\x27b" []).2.2.2.2 (by decide)⟩

/-! State-threading facts about statement transmission. -/

theorem foldl_writeB_writes : ∀ (l : List (List Nat)) (s : SerialState),
    (l.foldl writeB s).writes = s.writes ++ l
  | [], s => by simp
  | b :: bs, s => by
    rw [List.foldl_cons, foldl_writeB_writes bs]
    simp

theorem foldl_writeB_reads : ∀ (l : List (List Nat)) (s : SerialState),
    (l.foldl writeB s).reads = s.reads
  | [], _ => rfl
  | b :: bs, s => by
    rw [List.foldl_cons, foldl_writeB_reads bs]
    rfl

/-- Transmitting one statement reads the head of the queue. -/
theorem runStmt_fst (s : SerialState) (c : String) :
    (runStmt s c).1 = s.reads.getD 0 [] := by
  simp [runStmt, foldl_writeB_reads]

theorem runStmt_snd_reads (s : SerialState) (c : String) :
    (runStmt s c).2.reads = s.reads.drop 1 := by
  simp [runStmt, foldl_writeB_reads]

theorem runStmt_snd_writes (s : SerialState) (c : String) :
    (runStmt s c).2.writes = s.writes ++ (chunksOf 32 (utf8Encode c) ++ [[4]]) := by
  simp [runStmt, foldl_writeB_writes]

theorem runStmts_cons (s : SerialState) (c : String) (cs : List String) :
    runStmts s (c :: cs) = runStmts (runStmt s c).2 cs := rfl

/-- The write log after a list of statements is the previous log plus
exactly those statements' fragments and evaluation bytes. -/
theorem runStmts_writes : ∀ (cs : List String) (s : SerialState),
    (runStmts s cs).writes = s.writes ++ stmtWrites cs
  | [], s => by simp [runStmts, stmtWrites]
  | c :: cs, s => by
    rw [runStmts_cons, runStmts_writes cs, runStmt_snd_writes]
    simp [stmtWrites]

/-- A list of statements consumes exactly one queued read each. -/
theorem runStmts_reads : ∀ (cs : List String) (s : SerialState),
    (runStmts s cs).reads = s.reads.drop cs.length
  | [], s => by simp [runStmts]
  | c :: cs, s => by
    rw [runStmts_cons, runStmts_reads cs, runStmt_snd_reads]
    rw [List.drop_drop, List.length_cons, Nat.add_comm]

/-- When every statement's response parses to empty stderr, the loop
returns the accumulator followed by the statements' outputs in order,
with empty stderr. -/
theorem executeLoop_all_ok : ∀ (rest : List String) (c : String) (o : List Nat)
    (outs : List (List Nat)) (acc : List Nat) (lastErr : Option (List Nat)) (s : SerialState),
    outs.length = rest.length →
    (∀ j, j < rest.length + 1 → parseResp (s.reads.getD j []) = some ((o :: outs).getD j [], [])) →
    (executeLoop (c :: rest) acc lastErr s).1 = .ok (acc ++ (o :: outs).flatten, [])
  | [], c, o, outs, acc, lastErr, s => by
    intro hlen hok
    have houts : outs = [] := List.eq_nil_of_length_eq_zero hlen
    subst houts
    have h0 := hok 0 (by omega)
    rw [List.getD_cons_zero] at h0
    rw [executeLoop, runStmt_fst, h0]
    simp [executeLoop]
  | c2 :: rest, c, o, outs, acc, lastErr, s => by
    intro hlen hok
    rcases outs with _ | ⟨o2, outs'⟩
    · simp at hlen
    have h0 := hok 0 (by omega)
    rw [List.getD_cons_zero] at h0
    rw [executeLoop, runStmt_fst, h0]
    have hrec := executeLoop_all_ok rest c2 o2 outs' (acc ++ o) (some []) (runStmt s c).2
      (by simpa using hlen)
      (by
        intro j hj
        rw [runStmt_snd_reads, getD_drop_one]
        have := hok (j + 1) (by simp only [List.length_cons]; omega)
        simpa using this)
    simp [hrec]

/-- Claim C2 (amended to non-empty batches) — for every non-empty batch
whose statements all produce well-formed responses with empty stderr,
`execute` returns the concatenation of the statements' stdout payloads,
in statement order, paired with empty stderr.  (On the empty batch the
source instead fails by reading the never-assigned `err` variable, per
the counterexample.) -/
theorem claim_C2_execute_concatenates (cmds : List String) (outs : List (List Nat))
    (s0 : SerialState)
    (hne : cmds ≠ [])
    (hraw : (raw_on s0).1 = .ok ())
    (hlen : outs.length = cmds.length)
    (hok : ∀ j, j < cmds.length
      → parseResp ((raw_on s0).2.reads.getD j []) = some (outs.getD j [], [])) :
    (execute cmds s0).1 = .ok (outs.flatten, []) := by
  rcases h : raw_on s0 with ⟨r, s1⟩
  rw [h] at hraw hok
  simp only at hraw hok
  cases r with
  | error e => exact absurd hraw (by simp)
  | ok u =>
    unfold execute
    rw [h]
    rcases cmds with _ | ⟨c, rest⟩
    · exact absurd rfl hne
    rcases outs with _ | ⟨o, outs'⟩
    · simp at hlen
    have := executeLoop_all_ok rest c o outs' [] none s1
      (by simpa using hlen) (by simpa using hok)
    simpa using this

/-- Witness for claim C2 at the stub used by the repository's
`test_execute`: a two-statement batch whose outputs are empty and
`b'[]'` concatenates to `b'[]'` with empty stderr. -/
theorem claim_C2_execute_concatenates_witness :
    (execute ["import os", "print(os.listdir())"] stubTwoOk).1 = .ok ([91, 93], []) :=
  claim_C2_execute_concatenates ["import os", "print(os.listdir())"] [[], [91, 93]]
    stubTwoOk (by decide) rfl rfl (by decide)

/-- When the first `pre.length` responses parse cleanly and the next
response carries non-empty stderr, the loop stops there: it returns
empty stdout with that stderr, and the final transport state is exactly
the state after transmitting the clean statements and the failing one —
nothing further. -/
theorem executeLoop_abort : ∀ (pre : List String) (c : String) (post : List String)
    (outs : List (List Nat)) (oc e : List Nat) (acc : List Nat)
    (lastErr : Option (List Nat)) (s : SerialState),
    outs.length = pre.length →
    (∀ j, j < pre.length → parseResp (s.reads.getD j []) = some (outs.getD j [], [])) →
    parseResp (s.reads.getD pre.length []) = some (oc, e) →
    e ≠ [] →
    executeLoop (pre ++ c :: post) acc lastErr s = (.ok ([], e), runStmts s (pre ++ [c]))
  | [], c, post, outs, oc, e, acc, lastErr, s => by
    intro hlen hok hc he
    simp only [List.length_nil] at hc
    rw [List.nil_append, executeLoop, runStmt_fst, hc]
    simp [he, runStmts]
  | p1 :: pre, c, post, outs, oc, e, acc, lastErr, s => by
    intro hlen hok hc he
    rcases outs with _ | ⟨o, outs'⟩
    · simp at hlen
    have h0 := hok 0 (by simp only [List.length_cons]; omega)
    rw [List.getD_cons_zero] at h0
    rw [List.cons_append, executeLoop, runStmt_fst, h0]
    have hrec := executeLoop_abort pre c post outs' oc e (acc ++ o) (some []) (runStmt s p1).2
      (by simpa using hlen)
      (by
        intro j hj
        rw [runStmt_snd_reads, getD_drop_one]
        have := hok (j + 1) (by simp only [List.length_cons]; omega)
        simpa using this)
      (by
        rw [runStmt_snd_reads, getD_drop_one]
        simpa using hc)
      he
    simp [hrec, runStmts_cons]

/-- Claim C3 — if the statements before position `pre.length` succeed
and that statement's response carries non-empty stderr, `execute`
returns `(empty, stderr)` at once: the accumulated stdout is discarded,
the final transport state is exactly the state after transmitting only
the statements up to and including the failing one, its write log
extends the post-handshake log by precisely those statements' fragment
and evaluation bytes (so no later statement and no raw-mode-exit byte
`0x02` is written by the executor on this path), and exactly one read
per transmitted statement was consumed. -/
theorem claim_C3_execute_abort (pre : List String) (c : String) (post : List String)
    (outs : List (List Nat)) (oc e : List Nat) (s0 : SerialState)
    (hraw : (raw_on s0).1 = .ok ())
    (hlen : outs.length = pre.length)
    (hok : ∀ j, j < pre.length
      → parseResp ((raw_on s0).2.reads.getD j []) = some (outs.getD j [], []))
    (hc : parseResp ((raw_on s0).2.reads.getD pre.length []) = some (oc, e))
    (he : e ≠ []) :
    (execute (pre ++ c :: post) s0).1 = .ok ([], e)
      ∧ (execute (pre ++ c :: post) s0).2 = runStmts (raw_on s0).2 (pre ++ [c])
      ∧ (execute (pre ++ c :: post) s0).2.writes
          = (raw_on s0).2.writes ++ stmtWrites (pre ++ [c])
      ∧ (execute (pre ++ c :: post) s0).2.reads
          = (raw_on s0).2.reads.drop (pre.length + 1) := by
  rcases h : raw_on s0 with ⟨r, s1⟩
  rw [h] at hraw hok hc
  simp only at hraw hok hc
  cases r with
  | error e2 => exact absurd hraw (by simp)
  | ok u =>
    unfold execute
    rw [h]
    simp only
    have hE := executeLoop_abort pre c post outs oc e [] none s1 hlen hok hc he
    rw [hE]
    refine ⟨rfl, rfl, ?_, ?_⟩
    · exact runStmts_writes (pre ++ [c]) s1
    · rw [runStmts_reads (pre ++ [c]) s1]
      simp

/-- Witness for claim C3 at the stub whose second statement reports
`b'Error'`: the batch returns empty stdout with that stderr and leaves
the third queued response unconsumed. -/
theorem claim_C3_execute_abort_witness :
    (execute ["import os", "os.listdir()"] stubErrSecond).1
        = .ok ([], [69, 114, 114, 111, 114])
      ∧ (execute ["import os", "os.listdir()"] stubErrSecond).2.reads = [okResp] :=
  ⟨(claim_C3_execute_abort ["import os"] "os.listdir()" [] [[]] [] [69, 114, 114, 111, 114]
      stubErrSecond rfl rfl (by decide) (by decide) (by decide)).1,
   (claim_C3_execute_abort ["import os"] "os.listdir()" [] [[]] [] [69, 114, 114, 111, 114]
      stubErrSecond rfl rfl (by decide) (by decide) (by decide)).2.2.2⟩

/-- Claim C4 (amended to inputs that decode) — `clean_error` returns the
generic fallback on empty input; on decodable input with at least two
CRLF-delimited parts it returns exactly the second-to-last part (the
protected indexing never fails there); on decodable input with fewer
than two parts the indexing failure is caught and the whole decoded text
is returned unmodified.  However, a byte sequence that is not valid
UTF-8 makes `clean_error` itself raise: the `decode` call sits outside
the `try`, so a `UnicodeDecodeError` propagates instead of falling back
(per the counterexample). -/
theorem claim_C4_clean_error_cases (err : List Nat) :
    (err = [] → clean_error err = some "There was an error.")
      ∧ (err ≠ [] → utf8Decode? err = none → clean_error err = none)
      ∧ (∀ cs, err ≠ [] → utf8Decode? err = some cs →
          (2 ≤ (splitOnL crlf cs).length
            → clean_error err
                = some (String.mk ((splitOnL crlf cs).getD ((splitOnL crlf cs).length - 2) [])))
          ∧ ((splitOnL crlf cs).length < 2 → clean_error err = some (String.mk cs))) := by
  refine ⟨fun h => by rw [clean_error, if_pos h], fun hne hdec => ?_, fun cs hne hdec => ?_⟩
  · rw [clean_error, if_neg hne, hdec]
  · constructor
    · intro h2
      rw [clean_error, if_neg hne, hdec]
      simp only
      rw [if_pos h2]
    · intro hlt
      rw [clean_error, if_neg hne, hdec]
      simp only
      rw [if_neg (by omega)]

/-- Claim C4, counterexample — on the single byte `0xFF`, which is not
valid UTF-8, `clean_error` does not fall back to returning any text: it
raises (the model's `none`), contradicting the claim that it never
itself raises on any input byte sequence. -/
theorem claim_C4_counterexample_invalid_utf8 :
    clean_error [255] = none ∧ ([255] : List Nat) ≠ [] :=
  ⟨rfl, by decide⟩

/-- Witness for claim C4 at a decodable traceback-shaped input: the
bytes of `"a\r\nb\r\n"` split into three parts and the second-to-last,
`"b"`, is returned. -/
theorem claim_C4_clean_error_cases_witness :
    clean_error [97, 13, 10, 98, 13, 10] = some "b" := by
  have h := (claim_C4_clean_error_cases [97, 13, 10, 98, 13, 10]).2.2
    ("a\r\nb\r\n".data) (by decide) rfl
  exact h.1 (by decide)

end Microfs
